import Mathlib

/-!
Verification of the subconscious-daemon core (session scanner, playbook,
scheduler) against its natural-language specification.

The Lean definitions below are a shallow embedding of the Python sources:

* `Bullet`, `Bullet.quality_ratio`, `Bullet.total_references`
  — `playbook.py`, class `Bullet` (lines 29-59)
* `shouldPrune`, `pruneSection`, `pruneStale`
  — `playbook.py`, `Playbook._should_prune` / `Playbook.prune_stale`
* `wordsAux`/`wordSet`/`textSimilarity`
  — `playbook.py`, `Playbook._text_similarity` (Python `a.lower().split()`
    splits on whitespace runs and drops empty pieces; we model a Python `str`
    by a Lean `String` and split its character list directly)
* `innerStep`/`outerStep`/`dedupRun`/`dedupSection`/`deduplicate`
  — `playbook.py`, `Playbook.deduplicate` (the nested index loops with the
    mutable `to_remove` set become an explicit fold over index ranges)
* `bulletScore` — the scoring expression `quality_ratio * log1p(total_references + 1)`
  used by `get_top_bullets` and `export_for_agent`
* `bulletLine`/`packLines`/`exportForAgent` — `playbook.py`, `Playbook.export_for_agent`
* `DodCriterion`/`StateData`/`parseSession`/`SessionTrace.test_pass_rate`
  — `session_scanner.py`, `SessionScanner.parse_session` and `SessionTrace`
* `DirEntry`/`findNewSessions`/`findAllSessions`
  — `session_scanner.py`, `SessionScanner.find_new_sessions` / `find_all_sessions`
* `executeNextTask` — `daemon.py`, `SubconsciousDaemon._execute_next_task`

Machine floats in the source (`quality_ratio`, Jaccard similarity) are
modelled as exact rationals; the transcendental `math.log1p` is modelled by
`Real.log`.
-/

/-- One knowledge bullet of the playbook (`playbook.py`, class `Bullet`).
`sectionName` stands for the Python field `section` (a Lean keyword). -/
structure Bullet where
  id : String
  content : String
  sectionName : String
  helpful_count : ℕ
  harmful_count : ℕ
  source_session : String := ""
  added : String := ""
  last_referenced : String := ""
  last_validated : String := ""
deriving DecidableEq, Inhabited

/-- `Bullet.total_references`: `helpful_count + harmful_count`. -/
def Bullet.total_references (b : Bullet) : ℕ :=
  b.helpful_count + b.harmful_count

/-- `Bullet.quality_ratio`: `helpful / (helpful + harmful)`, and `0.5`
when both counters are zero (`playbook.py` lines 42-48). -/
def Bullet.quality_ratio (b : Bullet) : ℚ :=
  if b.helpful_count + b.harmful_count = 0 then 1/2
  else (b.helpful_count : ℚ) / ((b.helpful_count : ℚ) + (b.harmful_count : ℚ))

/-- `Playbook._should_prune` (`playbook.py` lines 372-385): never prune below
5 total references; otherwise prune when the quality ratio is below the floor,
or when stale (string-compared ISO timestamps) with fewer than 3 references. -/
def shouldPrune (b : Bullet) (cutoff : String) (min_quality : ℚ) : Bool :=
  if b.total_references < 5 then false
  else if b.quality_ratio < min_quality then true
  else if b.last_referenced < cutoff ∧ b.total_references < 3 then true
  else false

/-- One section's pass of `Playbook.prune_stale` (`playbook.py` lines 357-363):
keep exactly the bullets `_should_prune` rejects. -/
def pruneSection (cutoff : String) (min_quality : ℚ) (bullets : List Bullet) : List Bullet :=
  bullets.filter (fun b => ! shouldPrune b cutoff min_quality)

/-- `Playbook.prune_stale` over the whole playbook: each section is filtered,
and the number of removed bullets is accumulated. -/
def pruneStale (cutoff : String) (min_quality : ℚ)
    (pb : List (String × List Bullet)) : List (String × List Bullet) × ℕ :=
  (pb.map (fun s => (s.1, pruneSection cutoff min_quality s.2)),
   (pb.map (fun s => s.2.length - (pruneSection cutoff min_quality s.2).length)).sum)

/-- The simpler pruning rule the refinement claim compares against:
prune exactly the bullets with at least 5 references and quality below the
floor (the staleness disjunct removed). -/
def simplePruneRule (b : Bullet) (min_quality : ℚ) : Bool :=
  decide (5 ≤ b.total_references ∧ b.quality_ratio < min_quality)

/-- One definition-of-done criterion from the completion marker
(`state.json`, field `dod.criteria[i]`); `passed` models the truthiness of
`c.get("passed", False)`. -/
structure DodCriterion where
  description : String
  passed : Bool
deriving DecidableEq

/-- The fields of a parsed completion marker (`state.json`) that
`parse_session` reads. -/
structure StateData where
  goal : String := ""
  iteration : ℕ := 1
  started_at : String := ""
  completed_at : String := ""
  dod_criteria : List DodCriterion := []
deriving DecidableEq

/-- The claim-relevant fields of `SessionTrace` (`session_scanner.py`). -/
structure SessionTrace where
  session_id : String
  goal : String
  iterations_used : ℕ
  completed : Bool
  success : Bool
  dod_total : ℕ
  dod_passed : ℕ
  started_at : String
  completed_at : String
deriving DecidableEq

/-- `SessionTrace.test_pass_rate` (`session_scanner.py` lines 65-69). -/
def SessionTrace.test_pass_rate (t : SessionTrace) : ℚ :=
  if t.dod_total = 0 then 0
  else (t.dod_passed : ℚ) / (t.dod_total : ℚ)

/-- `dod_passed = sum(1 for c in dod_criteria if c.get("passed", False))`. -/
def dodPassedCount (criteria : List DodCriterion) : ℕ :=
  (criteria.filter (fun c => c.passed)).length

/-- `SessionScanner.parse_session` (`session_scanner.py` lines 172-207),
restricted to the completion-marker part: `none` when the marker is missing or
does not parse as JSON, otherwise the constructed `SessionTrace`. -/
def parseSession (session_id : String) (state : Option StateData) : Option SessionTrace :=
  match state with
  | none => none
  | some s =>
    some
      { session_id := session_id
        goal := s.goal
        iterations_used := s.iteration
        completed := s.completed_at ≠ ""
        success := dodPassedCount s.dod_criteria = s.dod_criteria.length ∧
          s.dod_criteria.length > 0
        dod_total := s.dod_criteria.length
        dod_passed := dodPassedCount s.dod_criteria
        started_at := s.started_at
        completed_at := s.completed_at }

/-- One entry of the sessions directory. `stateFile = none` means
`.agents/state.json` does not exist; `some none` means it exists but is not
valid JSON; `some (some st)` means it parses to `st`. -/
structure DirEntry where
  name : String
  isDir : Bool
  stateFile : Option (Option StateData)
deriving DecidableEq

/-- `sorted(self.sessions_dir.iterdir())`: directory entries ordered by name. -/
def sortEntries (entries : List DirEntry) : List DirEntry :=
  entries.mergeSort (fun a b => a.name ≤ b.name)

/-- `SessionScanner.find_new_sessions` (`session_scanner.py` lines 108-137):
directories, not yet processed, whose `state.json` exists, parses, and carries
a truthy `completed_at`. -/
def findNewSessions (processed : List String) (entries : List DirEntry) : List DirEntry :=
  (sortEntries entries).filter (fun e =>
    e.isDir && decide (e.name ∉ processed) &&
      (match e.stateFile with
       | some (some st) => decide (st.completed_at ≠ "")
       | _ => false))

/-- `SessionScanner.find_all_sessions` (`session_scanner.py` lines 139-152):
directories whose `state.json` exists — the content is not inspected. -/
def findAllSessions (entries : List DirEntry) : List DirEntry :=
  (sortEntries entries).filter (fun e => e.isDir && e.stateFile.isSome)

/-- The filter the specification claims `find_all_sessions` applies: marker
exists, parses, and carries a non-empty completion timestamp (the
`find_new_sessions` completeness filter without the processed-set). -/
def claimedAllSessions (entries : List DirEntry) : List DirEntry :=
  (sortEntries entries).filter (fun e =>
    e.isDir &&
      (match e.stateFile with
       | some (some st) => decide (st.completed_at ≠ "")
       | _ => false))

/-- The four task classes `_execute_next_task` can run in one cycle. -/
inductive TaskClass where
  | reflect
  | extract
  | reanalyze
  | selfEval
deriving DecidableEq

/-- Priority numbers from `daemon.py` (`TaskPriority`): lower = higher priority. -/
def taskPriority : TaskClass → ℕ
  | .reflect => 0
  | .extract => 2
  | .reanalyze => 3
  | .selfEval => 7

/-- The observable inputs of one `_execute_next_task` call: the result of
`find_new_sessions` and the three pending-work probes. -/
structure DaemonPending where
  newSessions : List String
  hasUnextracted : Bool
  hasToReanalyze : Bool
  isEvalTime : Bool

/-- Whether a task class has pending work in a given cycle. -/
def pendingWork (p : DaemonPending) : TaskClass → Bool
  | .reflect => decide (p.newSessions ≠ [])
  | .extract => p.hasUnextracted
  | .reanalyze => p.hasToReanalyze
  | .selfEval => p.isEvalTime

/-- `SubconsciousDaemon._execute_next_task` (`daemon.py` lines 180-221): the
first guard that fires runs its task and returns; `none` models `return False`. -/
def executeNextTask (p : DaemonPending) : Option TaskClass :=
  if p.newSessions ≠ [] then some .reflect
  else if p.hasUnextracted then some .extract
  else if p.hasToReanalyze then some .reanalyze
  else if p.isEvalTime then some .selfEval
  else none

/-- Counterexample bullet for the quality-ratio claim: one helpful and one
harmful reference. -/
def bulletOneOne : Bullet :=
  { id := "GE-001", content := "x", sectionName := "general",
    helpful_count := 1, harmful_count := 1 }

/-- Witness bullet with no references at all. -/
def bulletFresh : Bullet :=
  { id := "GE-002", content := "y", sectionName := "general",
    helpful_count := 0, harmful_count := 0 }

/-- C6 (counterexample): for the bullet with `helpful = harmful = 1` the
quality ratio is exactly `0.5` although `helpful + harmful ≠ 0`, so
"`quality_ratio = 0.5` iff `helpful + harmful = 0`" is false. -/
theorem C6_ratio_counterexample :
    ¬ (bulletOneOne.quality_ratio = 1/2 ↔
        bulletOneOne.helpful_count + bulletOneOne.harmful_count = 0) := by
  have h : bulletOneOne.quality_ratio = 1/2 := by
    norm_num [Bullet.quality_ratio, bulletOneOne]
  intro hiff
  have hz := hiff.mp h
  simp [bulletOneOne] at hz

/-- C6 (amended): for every bullet, `quality_ratio ∈ [0,1]`; it equals `0.5`
whenever `helpful + harmful = 0`, and it equals `0.5` iff
`helpful_count = harmful_count`. -/
theorem C6_ratio_amended (b : Bullet) :
    0 ≤ b.quality_ratio ∧ b.quality_ratio ≤ 1 ∧
      (b.helpful_count + b.harmful_count = 0 → b.quality_ratio = 1/2) ∧
      (b.quality_ratio = 1/2 ↔ b.helpful_count = b.harmful_count) := by
  unfold Bullet.quality_ratio
  by_cases h0 : b.helpful_count + b.harmful_count = 0
  · have h1 : b.helpful_count = 0 := by omega
    have h2 : b.harmful_count = 0 := by omega
    rw [if_pos h0]
    refine ⟨by norm_num, by norm_num, fun _ => rfl, ?_⟩
    rw [h1, h2]
    norm_num
  · have hpos : (0 : ℚ) < (b.helpful_count : ℚ) + (b.harmful_count : ℚ) := by
      have : 0 < b.helpful_count + b.harmful_count := Nat.pos_of_ne_zero h0
      exact_mod_cast this
  -- the division branch
    rw [if_neg h0]
    refine ⟨div_nonneg (by positivity) (le_of_lt hpos), ?_, ?_, ?_⟩
    · rw [div_le_one hpos]
      exact le_add_of_nonneg_right (by positivity)
    · intro h
      exact absurd h h0
    · rw [div_eq_iff (ne_of_gt hpos)]
      constructor
      · intro h
        have h2 : (2 : ℚ) * (b.helpful_count : ℚ) =
            (b.helpful_count : ℚ) + (b.harmful_count : ℚ) := by linarith
        have : (b.helpful_count : ℚ) = (b.harmful_count : ℚ) := by linarith
        exact_mod_cast this
      · intro h
        rw [h]
        ring

/-- C6 witness: the amended statement evaluated at the fresh bullet. -/
theorem C6_ratio_amended_witness :
    0 ≤ bulletFresh.quality_ratio ∧ bulletFresh.quality_ratio ≤ 1 ∧
      (bulletFresh.helpful_count + bulletFresh.harmful_count = 0 →
        bulletFresh.quality_ratio = 1/2) ∧
      (bulletFresh.quality_ratio = 1/2 ↔
        bulletFresh.helpful_count = bulletFresh.harmful_count) :=
  C6_ratio_amended bulletFresh

/-- C3: `_should_prune` returns `true` exactly when the bullet has at least 5
total references and either its quality ratio is below the floor, or it is
stale with fewer than 3 total references; consequently `prune_stale` never
removes a bullet with fewer than 5 total references, for any thresholds. -/
theorem C3_prune_rule :
    (∀ (b : Bullet) (cutoff : String) (minq : ℚ),
        shouldPrune b cutoff minq = true ↔
          (5 ≤ b.total_references ∧
            (b.quality_ratio < minq ∨
              (b.last_referenced < cutoff ∧ b.total_references < 3)))) ∧
    (∀ (cutoff : String) (minq : ℚ) (bullets : List Bullet) (b : Bullet),
        b ∈ bullets → b.total_references < 5 →
          b ∈ pruneSection cutoff minq bullets) := by
  constructor
  · intro b cutoff minq
    unfold shouldPrune
    split_ifs with h1 h2 h3
    · simp only [false_iff]
      intro hc
      omega
    · simp only [true_iff]
      exact ⟨by omega, Or.inl h2⟩
    · simp only [true_iff]
      exact ⟨by omega, Or.inr h3⟩
    · simp only [false_iff]
      rintro ⟨h5, hc | hc⟩
      · exact h2 hc
      · exact h3 hc
  · intro cutoff minq bullets b hb hlt
    have h : shouldPrune b cutoff minq = false := by
      unfold shouldPrune
      rw [if_pos hlt]
    refine List.mem_filter.mpr ⟨hb, ?_⟩
    rw [h]
    rfl

/-- C3 witness: a bullet with zero references survives pruning. -/
theorem C3_prune_rule_witness :
    bulletFresh ∈ pruneSection "2026-01-01" 1 [bulletFresh] :=
  C3_prune_rule.2 "2026-01-01" 1 [bulletFresh] bulletFresh
    (List.mem_singleton_self bulletFresh) (by decide)

/-- C10: the staleness disjunct of `_should_prune` is dead code — the rule is
extensionally the simpler predicate "at least 5 references and quality below
the floor", and `prune_stale`'s per-section filter coincides with filtering by
that simpler predicate. -/
theorem C10_stale_branch_dead :
    (∀ (b : Bullet) (cutoff : String) (minq : ℚ),
        shouldPrune b cutoff minq = simplePruneRule b minq) ∧
    (∀ (cutoff : String) (minq : ℚ) (bullets : List Bullet),
        pruneSection cutoff minq bullets =
          bullets.filter (fun b => ! simplePruneRule b minq)) := by
  have key : ∀ (b : Bullet) (cutoff : String) (minq : ℚ),
      shouldPrune b cutoff minq = simplePruneRule b minq := by
    intro b cutoff minq
    unfold shouldPrune simplePruneRule
    split_ifs with h1 h2 h3
    · have : ¬ (5 ≤ b.total_references ∧ b.quality_ratio < minq) := by
        intro hc
        omega
      simp [this]
    · have : 5 ≤ b.total_references ∧ b.quality_ratio < minq := ⟨by omega, h2⟩
      simp [this]
    · omega
    · have : ¬ (5 ≤ b.total_references ∧ b.quality_ratio < minq) := by
        rintro ⟨-, hc⟩
        exact h2 hc
      simp [this]
  refine ⟨key, ?_⟩
  intro cutoff minq bullets
  unfold pruneSection
  exact List.filter_congr (fun b _ => by rw [key b cutoff minq])

/-- Completion marker with an empty DoD criteria list. -/
def stateNoDod : StateData :=
  { goal := "g", iteration := 1, completed_at := "2026-01-01T00:00:00",
    dod_criteria := [] }

/-- Completion marker with two criteria, both passed. -/
def stateTwoPassed : StateData :=
  { goal := "g", iteration := 1, completed_at := "2026-01-01T00:00:00",
    dod_criteria := [⟨"builds", true⟩, ⟨"tests pass", true⟩] }

/-- C1: whenever the completion marker parses, `parse_session` returns a trace
whose `success` is true iff the DoD criteria list is non-empty and every
criterion passed; an empty criteria list yields `success = false` with pass
rate `0`, and two passed criteria yield `success = true`, `dod_passed = 2`,
`dod_total = 2`, pass rate `1`. -/
theorem C1_success_iff :
    (∀ (sid : String) (s : StateData), ∃ t, parseSession sid (some s) = some t ∧
        (t.success = true ↔
          (s.dod_criteria ≠ [] ∧ ∀ c ∈ s.dod_criteria, c.passed = true))) ∧
    (∃ t, parseSession "s-empty" (some stateNoDod) = some t ∧
        t.success = false ∧ t.test_pass_rate = 0) ∧
    (∃ t, parseSession "s-two" (some stateTwoPassed) = some t ∧
        t.success = true ∧ t.dod_passed = 2 ∧ t.dod_total = 2 ∧
        t.test_pass_rate = 1) := by
  refine ⟨?_, ?_, ?_⟩
  · intro sid s
    refine ⟨_, rfl, ?_⟩
    simp only [parseSession, decide_eq_true_iff]
    constructor
    · rintro ⟨hcount, hpos⟩
      refine ⟨List.length_pos.mp hpos, ?_⟩
      intro c hc
      by_contra hcp
      have hlt : (s.dod_criteria.filter (fun c => c.passed)).length <
          s.dod_criteria.length := by
        apply List.length_filter_lt_length_iff_exists.mpr
        exact ⟨c, hc, by simp [hcp]⟩
      rw [dodPassedCount] at hcount
      omega
    · rintro ⟨hne, hall⟩
      have hfil : s.dod_criteria.filter (fun c => c.passed) = s.dod_criteria :=
        List.filter_eq_self.mpr hall
      refine ⟨by rw [dodPassedCount, hfil], ?_⟩
      exact List.length_pos.mpr hne
  · refine ⟨_, rfl, ?_, ?_⟩
    · simp [parseSession, stateNoDod, dodPassedCount]
    · simp [parseSession, stateNoDod, SessionTrace.test_pass_rate, dodPassedCount]
  · refine ⟨_, rfl, ?_, ?_, ?_, ?_⟩
    · simp [parseSession, stateTwoPassed, dodPassedCount]
    · simp [parseSession, stateTwoPassed, dodPassedCount]
    · simp [parseSession, stateTwoPassed]
    · norm_num [parseSession, stateTwoPassed, SessionTrace.test_pass_rate,
        dodPassedCount]

/-- C2: each scheduler cycle runs at most one task class — the returned one —
and it is the highest-priority class with pending work; any class with pending
work forces the executed class to have priority at least as high; and a cycle
with one new session and nothing else due executes Reflect. -/
theorem C2_strict_priority :
    (∀ (p : DaemonPending) (t : TaskClass), executeNextTask p = some t →
        pendingWork p t = true ∧
          ∀ t', taskPriority t' < taskPriority t → pendingWork p t' = false) ∧
    (∀ (p : DaemonPending) (t : TaskClass), pendingWork p t = true →
        ∃ t', executeNextTask p = some t' ∧ taskPriority t' ≤ taskPriority t) ∧
    (∀ name : String,
        executeNextTask ⟨[name], false, false, false⟩ = some .reflect) := by
  refine ⟨?_, ?_, ?_⟩
  · intro p t ht
    unfold executeNextTask at ht
    split_ifs at ht with h1 h2 h3 h4
    all_goals simp only [Option.some.injEq] at ht
    all_goals subst ht
    · exact ⟨by simp [pendingWork, h1], by intro t'; cases t' <;> simp [taskPriority]⟩
    · refine ⟨by simp [pendingWork, h2], ?_⟩
      intro t' hlt
      cases t' <;> simp [taskPriority] at hlt ⊢
      simp [pendingWork, h1]
    · refine ⟨by simp [pendingWork, h3], ?_⟩
      intro t' hlt
      cases t' <;> simp [taskPriority] at hlt ⊢
      · simp [pendingWork, h1]
      · simp [pendingWork, h2]
    · refine ⟨by simp [pendingWork, h4], ?_⟩
      intro t' hlt
      cases t' <;> simp [taskPriority] at hlt ⊢
      · simp [pendingWork, h1]
      · simp [pendingWork, h2]
      · simp [pendingWork, h3]
  · intro p t ht
    unfold executeNextTask
    cases t
    · simp only [pendingWork, decide_eq_true_iff] at ht
      exact ⟨.reflect, by rw [if_pos ht], le_refl _⟩
    · by_cases h1 : p.newSessions ≠ []
      · exact ⟨.reflect, by rw [if_pos h1], by simp [taskPriority]⟩
      · simp only [pendingWork] at ht
        exact ⟨.extract, by rw [if_neg h1, if_pos ht], le_refl _⟩
    · by_cases h1 : p.newSessions ≠ []
      · exact ⟨.reflect, by rw [if_pos h1], by simp [taskPriority]⟩
      · by_cases h2 : p.hasUnextracted
        · exact ⟨.extract, by rw [if_neg h1, if_pos h2], by simp [taskPriority]⟩
        · simp only [pendingWork] at ht
          exact ⟨.reanalyze, by rw [if_neg h1, if_neg h2, if_pos ht], le_refl _⟩
    · by_cases h1 : p.newSessions ≠ []
      · exact ⟨.reflect, by rw [if_pos h1], by simp [taskPriority]⟩
      · by_cases h2 : p.hasUnextracted
        · exact ⟨.extract, by rw [if_neg h1, if_pos h2], by simp [taskPriority]⟩
        · by_cases h3 : p.hasToReanalyze
          · exact ⟨.reanalyze, by rw [if_neg h1, if_neg h2, if_pos h3],
              by simp [taskPriority]⟩
          · simp only [pendingWork] at ht
            exact ⟨.selfEval, by rw [if_neg h1, if_neg h2, if_neg h3, if_pos ht],
              le_refl _⟩
  · intro name
    unfold executeNextTask
    rw [if_pos (by simp)]

/-- C2 witness: with exactly one new session and nothing else pending, the
executed class is Reflect, it has pending work, and nothing strictly higher
in priority does. -/
theorem C2_strict_priority_witness :
    pendingWork ⟨["sess-001"], false, false, false⟩ TaskClass.reflect = true ∧
      ∀ t', taskPriority t' < taskPriority TaskClass.reflect →
        pendingWork ⟨["sess-001"], false, false, false⟩ t' = false :=
  C2_strict_priority.1 ⟨["sess-001"], false, false, false⟩ TaskClass.reflect
    (C2_strict_priority.2.2 "sess-001")

/-- A session directory whose `state.json` exists and parses but whose
`completed_at` is empty: `find_all_sessions` keeps it, the claimed filter
would not. -/
def entryStale : DirEntry :=
  { name := "s1", isDir := true,
    stateFile := some (some { completed_at := "" }) }

/-- A completed session directory entry. -/
def entryDone : DirEntry :=
  { name := "s2", isDir := true,
    stateFile := some (some { completed_at := "2026-01-01T00:00:00" }) }

/-- C9 (counterexample): on a directory holding one session whose marker
exists but carries an empty completion timestamp, `find_all_sessions` keeps
the session although the claimed completeness filter would drop it — it does
not apply the same filter as `find_new_sessions`. -/
theorem C9_counterexample :
    findAllSessions [entryStale] ≠ claimedAllSessions [entryStale] := by
  simp [findAllSessions, claimedAllSessions, sortEntries,
    List.mergeSort_singleton, entryStale]

/-- C9 (amended): `find_all_sessions` ignores the processed-set and filters
only on existence of the completion marker file — it returns exactly the
subdirectory entries having a marker, whether or not the marker parses or
carries a timestamp, ordered by directory name; every result of
`find_new_sessions` also appears in it. -/
theorem C9_all_sessions_amended :
    (∀ (entries : List DirEntry) (e : DirEntry),
        e ∈ findAllSessions entries ↔
          (e ∈ entries ∧ e.isDir = true ∧ e.stateFile.isSome = true)) ∧
    (∀ entries : List DirEntry,
        (findAllSessions entries).Pairwise (fun a b => a.name ≤ b.name)) ∧
    (∀ (processed : List String) (entries : List DirEntry) (e : DirEntry),
        e ∈ findNewSessions processed entries → e ∈ findAllSessions entries) := by
  have hmem : ∀ (entries : List DirEntry) (e : DirEntry),
      e ∈ sortEntries entries ↔ e ∈ entries := by
    intro entries e
    exact (List.mergeSort_perm entries _).mem_iff
  refine ⟨?_, ?_, ?_⟩
  · intro entries e
    unfold findAllSessions
    rw [List.mem_filter, hmem]
    simp [Bool.and_eq_true]
  · intro entries
    have hs : (sortEntries entries).Pairwise
        (fun a b => decide (a.name ≤ b.name) = true) := by
      apply List.sorted_mergeSort
      · intro a b c hab hbc
        rw [decide_eq_true_iff] at *
        exact le_trans hab hbc
      · intro a b
        rw [Bool.or_eq_true, decide_eq_true_iff, decide_eq_true_iff]
        exact le_total a.name b.name
    unfold findAllSessions
    exact (hs.filter _).imp (fun h => decide_eq_true_iff.mp h)
  · intro processed entries e he
    unfold findNewSessions at he
    rw [List.mem_filter] at he
    obtain ⟨hmem', hp⟩ := he
    unfold findAllSessions
    rw [List.mem_filter]
    refine ⟨hmem', ?_⟩
    rw [Bool.and_eq_true, Bool.and_eq_true] at hp
    rw [Bool.and_eq_true]
    refine ⟨hp.1.1, ?_⟩
    cases hst : e.stateFile with
    | none => rw [hst] at hp; simp at hp
    | some st => simp [Option.isSome]

/-- C9 witness: a completed session found by `find_new_sessions` is also
returned by `find_all_sessions`. -/
theorem C9_all_sessions_amended_witness :
    entryDone ∈ findAllSessions [entryDone] :=
  C9_all_sessions_amended.2.2 [] [entryDone] entryDone
    (by simp [findNewSessions, sortEntries, List.mergeSort_singleton, entryDone])

/-- Splits a character list into maximal whitespace-free words, as Python's
`str.split()` with no separator does (runs of whitespace collapse, no empty
pieces). `acc` holds the current word, reversed. -/
def wordsAux : List Char → List Char → List (List Char)
  | [], acc => if acc = [] then [] else [acc.reverse]
  | c :: cs, acc =>
    if c.isWhitespace then
      (if acc = [] then wordsAux cs [] else acc.reverse :: wordsAux cs [])
    else wordsAux cs (c :: acc)

/-- `set(a.lower().split())` from `Playbook._text_similarity`: the set of
case-folded words of a string. -/
def wordSet (s : String) : Finset (List Char) :=
  (wordsAux (s.data.map Char.toLower) []).toFinset

/-- `Playbook._text_similarity` (`playbook.py` lines 397-406): Jaccard index
of the word sets, `0` when either set is empty. -/
def textSimilarity (a b : String) : ℚ :=
  if wordSet a = ∅ ∨ wordSet b = ∅ then 0
  else ((wordSet a ∩ wordSet b).card : ℚ) / ((wordSet a ∪ wordSet b).card : ℚ)

/-- Count merging of `deduplicate`: the loser's helpful/harmful counts are
added into the surviving bullet (`playbook.py` lines 330-331 and 334-335). -/
def mergeInto (winner loser : Bullet) : Bullet :=
  { winner with
    helpful_count := winner.helpful_count + loser.helpful_count,
    harmful_count := winner.harmful_count + loser.harmful_count }

/-- The mutable state of `Playbook.deduplicate`'s nested loops over one
section: the bullet list (`bullets`, mutated in place by count merges) and the
`to_remove` index set (kept duplicate-free, as a Python `set`). -/
structure DState where
  bs : List Bullet
  rem : List ℕ
deriving DecidableEq

/-- The body of the inner `for j in range(i + 1, len(bullets))` loop of
`Playbook.deduplicate` (`playbook.py` lines 321-335), for fixed `i`. -/
def innerStep (thr : ℚ) (i : ℕ) (s : DState) (j : ℕ) : DState :=
  if j ∈ s.rem then s
  else if thr ≤ textSimilarity (s.bs.getD i default).content
      (s.bs.getD j default).content then
    if (s.bs.getD j default).quality_ratio ≤ (s.bs.getD i default).quality_ratio then
      ⟨s.bs.set i (mergeInto (s.bs.getD i default) (s.bs.getD j default)),
        s.rem.insert j⟩
    else
      ⟨s.bs.set j (mergeInto (s.bs.getD j default) (s.bs.getD i default)),
        s.rem.insert i⟩
  else s

/-- The body of the outer `for i in range(len(bullets))` loop of
`Playbook.deduplicate` (`playbook.py` lines 318-335): skip removed `i`, else
run the inner loop over `j ∈ [i+1, n)`. -/
def outerStep (thr : ℚ) (n : ℕ) (s : DState) (i : ℕ) : DState :=
  if i ∈ s.rem then s
  else (List.range' (i + 1) (n - (i + 1))).foldl (innerStep thr i) s

/-- Both loops of `Playbook.deduplicate` over one section, from the initial
state (original bullets, empty `to_remove`). -/
def dedupRun (thr : ℚ) (bullets : List Bullet) : DState :=
  (List.range bullets.length).foldl (outerStep thr bullets.length) ⟨bullets, []⟩

/-- `[b for idx, b in enumerate(bullets) if idx not in to_remove]`
(`playbook.py` lines 338-340). -/
def keepIdx (bs : List Bullet) (rem : List ℕ) : List Bullet :=
  ((List.range bs.length).filter (fun k => k ∉ rem)).map
    (fun k => bs.getD k default)

/-- `Playbook.deduplicate` restricted to one section: the surviving bullets
and the number removed. Sections with fewer than two bullets are skipped
(`playbook.py` lines 313-314). -/
def dedupSection (thr : ℚ) (bullets : List Bullet) : List Bullet × ℕ :=
  if bullets.length < 2 then (bullets, 0)
  else (keepIdx (dedupRun thr bullets).bs (dedupRun thr bullets).rem,
    (dedupRun thr bullets).rem.length)

/-- `Playbook.deduplicate` (`playbook.py` lines 305-348) over the whole
playbook: each section is deduplicated independently; returns the new
playbook and the total number of removed bullets. -/
def deduplicate (thr : ℚ) (pb : List (String × List Bullet)) :
    List (String × List Bullet) × ℕ :=
  (pb.map (fun sec => (sec.1, (dedupSection thr sec.2).1)),
   (pb.map (fun sec => (dedupSection thr sec.2).2)).sum)

lemma map_content_set :
    ∀ (l : List Bullet) (i : ℕ) (b : Bullet),
      b.content = (l.getD i default).content →
      (l.set i b).map Bullet.content = l.map Bullet.content
  | [], _, _, _ => by simp
  | a :: l, 0, b, hb => by
    simp only [List.getD_cons_zero] at hb
    simp [List.set, hb]
  | a :: l, i + 1, b, hb => by
    simp only [List.getD_cons_succ] at hb
    simp [List.set, map_content_set l i b hb]

lemma innerStep_map_content (thr : ℚ) (i : ℕ) (s : DState) (j : ℕ) :
    ((innerStep thr i s j).bs).map Bullet.content = s.bs.map Bullet.content := by
  unfold innerStep
  split_ifs
  · rfl
  · exact map_content_set _ _ _ rfl
  · exact map_content_set _ _ _ rfl
  · rfl

lemma innerStep_rem_mono (thr : ℚ) (i : ℕ) (s : DState) (j : ℕ) :
    s.rem ⊆ (innerStep thr i s j).rem := by
  unfold innerStep
  split_ifs
  · exact fun a ha => ha
  · exact List.subset_insert _ _
  · exact List.subset_insert _ _
  · exact fun a ha => ha

lemma foldl_innerStep_map_content (thr : ℚ) (i : ℕ) :
    ∀ (js : List ℕ) (s : DState),
      ((js.foldl (innerStep thr i) s).bs).map Bullet.content =
        s.bs.map Bullet.content
  | [], _ => rfl
  | j :: js, s => by
    rw [List.foldl_cons, foldl_innerStep_map_content thr i js,
      innerStep_map_content]

lemma foldl_innerStep_rem_mono (thr : ℚ) (i : ℕ) :
    ∀ (js : List ℕ) (s : DState), s.rem ⊆ (js.foldl (innerStep thr i) s).rem
  | [], _ => fun _ ha => ha
  | j :: js, s => by
    rw [List.foldl_cons]
    exact fun a ha =>
      foldl_innerStep_rem_mono thr i js _ (innerStep_rem_mono thr i s j ha)

lemma outerStep_map_content (thr : ℚ) (n : ℕ) (s : DState) (i : ℕ) :
    ((outerStep thr n s i).bs).map Bullet.content = s.bs.map Bullet.content := by
  unfold outerStep
  split_ifs
  · rfl
  · exact foldl_innerStep_map_content thr i _ s

lemma outerStep_rem_mono (thr : ℚ) (n : ℕ) (s : DState) (i : ℕ) :
    s.rem ⊆ (outerStep thr n s i).rem := by
  unfold outerStep
  split_ifs
  · exact fun _ ha => ha
  · exact foldl_innerStep_rem_mono thr i _ s

lemma foldl_outerStep_map_content (thr : ℚ) (n : ℕ) :
    ∀ (idxs : List ℕ) (s : DState),
      ((idxs.foldl (outerStep thr n) s).bs).map Bullet.content =
        s.bs.map Bullet.content
  | [], _ => rfl
  | i :: idxs, s => by
    rw [List.foldl_cons, foldl_outerStep_map_content thr n idxs,
      outerStep_map_content]

lemma foldl_outerStep_rem_mono (thr : ℚ) (n : ℕ) :
    ∀ (idxs : List ℕ) (s : DState), s.rem ⊆ (idxs.foldl (outerStep thr n) s).rem
  | [], _ => fun _ ha => ha
  | i :: idxs, s => by
    rw [List.foldl_cons]
    exact fun a ha =>
      foldl_outerStep_rem_mono thr n idxs _ (outerStep_rem_mono thr n s i ha)

lemma content_getD_of_map_eq {l₁ l₂ : List Bullet}
    (h : l₁.map Bullet.content = l₂.map Bullet.content) (k : ℕ) :
    (l₁.getD k default).content = (l₂.getD k default).content := by
  have h1 : (l₁.map Bullet.content).getD k ((default : Bullet).content) =
      (l₂.map Bullet.content).getD k ((default : Bullet).content) := by rw [h]
  rwa [List.getD_map, List.getD_map] at h1

lemma dedupRun_pair_dissimilar (thr : ℚ) (bullets : List Bullet) {i j : ℕ}
    (hij : i < j) (hjn : j < bullets.length)
    (hi : i ∉ (dedupRun thr bullets).rem) (hj : j ∉ (dedupRun thr bullets).rem) :
    textSimilarity (bullets.getD i default).content
      (bullets.getD j default).content < thr := by
  by_contra hsim
  push_neg at hsim
  set n := bullets.length with hn
  have hin : i < n := lt_trans hij hjn
  have houter : List.range n = List.range' 0 i ++ i :: List.range' (i+1) (n - (i+1)) := by
    have h3 := List.range'_append 0 i (n - i) 1
    simp only [Nat.one_mul, Nat.zero_add] at h3
    have h2 : List.range' i (n - i) = i :: List.range' (i+1) (n - (i+1)) := by
      rw [show n - i = (n - (i+1)) + 1 by omega, List.range'_succ]
    have h4 : List.range' 0 i ++ List.range' i (n - i) = List.range' 0 n := by
      rw [h3, show (n - i) + i = n by omega]
    rw [List.range_eq_range', ← h4, h2]
  set sA := (List.range' 0 i).foldl (outerStep thr n) ⟨bullets, []⟩ with hsA
  have hrun : dedupRun thr bullets =
      (List.range' (i+1) (n - (i+1))).foldl (outerStep thr n)
        (outerStep thr n sA i) := by
    unfold dedupRun
    rw [← hn, houter, List.foldl_append, List.foldl_cons, hsA]
  have hiA : i ∉ sA.rem := by
    intro hmem
    apply hi
    rw [hrun]
    exact foldl_outerStep_rem_mono thr n _ _ (outerStep_rem_mono thr n sA i hmem)
  have hstep : outerStep thr n sA i =
      (List.range' (i+1) (n - (i+1))).foldl (innerStep thr i) sA := by
    unfold outerStep
    rw [if_neg hiA]
  have hinner : List.range' (i+1) (n - (i+1)) =
      List.range' (i+1) (j - (i+1)) ++ j :: List.range' (j+1) (n - (j+1)) := by
    have h3 := List.range'_append (i+1) (j - (i+1)) (n - j) 1
    simp only [Nat.one_mul] at h3
    rw [show (i+1) + (j - (i+1)) = j by omega] at h3
    have h2 : List.range' j (n - j) = j :: List.range' (j+1) (n - (j+1)) := by
      rw [show n - j = (n - (j+1)) + 1 by omega, List.range'_succ]
    rw [show n - (i+1) = (n - j) + (j - (i+1)) by omega, ← h3, h2]
  set sB := (List.range' (i+1) (j - (i+1))).foldl (innerStep thr i) sA with hsB
  have hrun2 : dedupRun thr bullets =
      (List.range' (i+1) (n - (i+1))).foldl (outerStep thr n)
        ((List.range' (j+1) (n - (j+1))).foldl (innerStep thr i)
          (innerStep thr i sB j)) := by
    rw [hrun, hstep]
    congr 1
    rw [hinner, List.foldl_append, List.foldl_cons, ← hsB]
  have hjB : j ∉ sB.rem := by
    intro hmem
    apply hj
    rw [hrun2]
    exact foldl_outerStep_rem_mono thr n _ _
      (foldl_innerStep_rem_mono thr i _ _ (innerStep_rem_mono thr i sB j hmem))
  have hcontB : sB.bs.map Bullet.content = bullets.map Bullet.content := by
    rw [hsB, foldl_innerStep_map_content, hsA, foldl_outerStep_map_content]
  have hci : (sB.bs.getD i default).content = (bullets.getD i default).content :=
    content_getD_of_map_eq hcontB i
  have hcj : (sB.bs.getD j default).content = (bullets.getD j default).content :=
    content_getD_of_map_eq hcontB j
  have hfire : i ∈ (innerStep thr i sB j).rem ∨ j ∈ (innerStep thr i sB j).rem := by
    unfold innerStep
    rw [if_neg hjB]
    have hc : thr ≤ textSimilarity (sB.bs.getD i default).content
        (sB.bs.getD j default).content := by
      rw [hci, hcj]
      exact hsim
    rw [if_pos hc]
    by_cases hq : (sB.bs.getD j default).quality_ratio ≤
        (sB.bs.getD i default).quality_ratio
    · rw [if_pos hq]
      exact Or.inr (List.mem_insert_self j _)
    · rw [if_neg hq]
      exact Or.inl (List.mem_insert_self i _)
  rcases hfire with hf | hf
  · apply hi
    rw [hrun2]
    exact foldl_outerStep_rem_mono thr n _ _
      (foldl_innerStep_rem_mono thr i _ _ hf)
  · apply hj
    rw [hrun2]
    exact foldl_outerStep_rem_mono thr n _ _
      (foldl_innerStep_rem_mono thr i _ _ hf)

lemma innerStep_id (thr : ℚ) (i j : ℕ) (s : DState)
    (h : textSimilarity (s.bs.getD i default).content
      (s.bs.getD j default).content < thr) :
    innerStep thr i s j = s := by
  unfold innerStep
  by_cases hjr : j ∈ s.rem
  · rw [if_pos hjr]
  · rw [if_neg hjr, if_neg (not_le.mpr h)]

lemma foldl_innerStep_id (thr : ℚ) (i : ℕ) (bullets : List Bullet)
    (hdis : ∀ j, i < j → j < bullets.length →
      textSimilarity (bullets.getD i default).content
        (bullets.getD j default).content < thr) :
    ∀ js : List ℕ, (∀ j ∈ js, i < j ∧ j < bullets.length) →
      js.foldl (innerStep thr i) ⟨bullets, []⟩ = ⟨bullets, []⟩
  | [], _ => rfl
  | j :: js, hjs => by
    have hj := hjs j (by simp)
    rw [List.foldl_cons, innerStep_id thr i j ⟨bullets, []⟩ (hdis j hj.1 hj.2)]
    exact foldl_innerStep_id thr i bullets hdis js
      (fun j' hj' => hjs j' (by simp [hj']))

lemma dedupRun_id (thr : ℚ) (bullets : List Bullet)
    (hdis : ∀ i j, i < j → j < bullets.length →
      textSimilarity (bullets.getD i default).content
        (bullets.getD j default).content < thr) :
    dedupRun thr bullets = ⟨bullets, []⟩ := by
  unfold dedupRun
  generalize List.range bullets.length = idxs
  induction idxs with
  | nil => rfl
  | cons i tl ih =>
    rw [List.foldl_cons]
    have hstep : outerStep thr bullets.length ⟨bullets, []⟩ i = ⟨bullets, []⟩ := by
      unfold outerStep
      rw [if_neg (List.not_mem_nil i)]
      apply foldl_innerStep_id thr i bullets (fun j => hdis i j)
      intro j hj
      rw [List.mem_range'_1] at hj
      omega
    rw [hstep, ih]

lemma getD_eq_getElem_of_lt (l : List Bullet) {p : ℕ} (hp : p < l.length) :
    l.getD p default = l[p] := by
  rw [List.getD_eq_getElem?_getD, List.getElem?_eq_getElem hp]
  rfl

lemma map_getD_range (l : List Bullet) :
    (List.range l.length).map (fun k => l.getD k default) = l := by
  apply List.ext_getElem?
  intro m
  rw [List.getElem?_map]
  by_cases hm : m < l.length
  · rw [List.getElem?_range hm, List.getElem?_eq_getElem hm]
    show some (l.getD m default) = some l[m]
    rw [List.getD_eq_getElem?_getD, List.getElem?_eq_getElem hm]
    rfl
  · have h1 : (List.range l.length)[m]? = none :=
      List.getElem?_eq_none (by rw [List.length_range]; omega)
    have h2 : l[m]? = none := List.getElem?_eq_none (by omega)
    rw [h1, h2]
    rfl

lemma keepIdx_nil (l : List Bullet) : keepIdx l [] = l := by
  unfold keepIdx
  have h : (List.range l.length).filter (fun k => k ∉ ([] : List ℕ)) =
      List.range l.length :=
    List.filter_eq_self.mpr (by intro a _; simp)
  rw [h, map_getD_range]

lemma dedupSection_pairs (thr : ℚ) (bullets : List Bullet) :
    ∀ p q, p < q → q < ((dedupSection thr bullets).1).length →
      textSimilarity ((((dedupSection thr bullets).1).getD p default).content)
        ((((dedupSection thr bullets).1).getD q default).content) < thr := by
  intro p q hpq hq
  by_cases hlen : bullets.length < 2
  · exfalso
    have hfst : (dedupSection thr bullets).1 = bullets := by
      unfold dedupSection
      rw [if_pos hlen]
    rw [hfst] at hq
    omega
  · have hfst : (dedupSection thr bullets).1 =
        keepIdx (dedupRun thr bullets).bs (dedupRun thr bullets).rem := by
      unfold dedupSection
      rw [if_neg hlen]
    set F := dedupRun thr bullets with hF
    set idxs := (List.range F.bs.length).filter (fun k => k ∉ F.rem) with hidxs
    have hkeep : keepIdx F.bs F.rem = idxs.map (fun k => F.bs.getD k default) := rfl
    have hcont : F.bs.map Bullet.content = bullets.map Bullet.content := by
      rw [hF]
      unfold dedupRun
      exact foldl_outerStep_map_content _ _ _ _
    have hlenF : F.bs.length = bullets.length := by
      have hc := congrArg List.length hcont
      simpa using hc
    have hqlen : q < idxs.length := by
      rw [hfst, hkeep, List.length_map] at hq
      exact hq
    have hplen : p < idxs.length := lt_trans hpq hqlen
    have hpw : idxs.Pairwise (· < ·) :=
      (List.pairwise_lt_range F.bs.length).filter _
    have hab : idxs[p] < idxs[q] := by
      have hg := List.pairwise_iff_get.mp hpw ⟨p, hplen⟩ ⟨q, hqlen⟩
        (Fin.mk_lt_mk.mpr hpq)
      simpa [List.get_eq_getElem] using hg
    have hmem : ∀ {r : ℕ} (hr : r < idxs.length), idxs[r] ∉ F.rem ∧
        idxs[r] < bullets.length := by
      intro r hr
      have hmm : idxs[r] ∈ idxs := List.getElem_mem hr
      constructor
      · have := List.of_mem_filter hmm
        simpa using this
      · have := List.mem_of_mem_filter hmm
        rw [List.mem_range] at this
        omega
    have hgp : ((dedupSection thr bullets).1).getD p default =
        F.bs.getD idxs[p] default := by
      rw [hfst, hkeep,
        getD_eq_getElem_of_lt _ (by rw [List.length_map]; exact hplen),
        List.getElem_map]
    have hgq : ((dedupSection thr bullets).1).getD q default =
        F.bs.getD idxs[q] default := by
      rw [hfst, hkeep,
        getD_eq_getElem_of_lt _ (by rw [List.length_map]; exact hqlen),
        List.getElem_map]
    rw [hgp, hgq, content_getD_of_map_eq hcont, content_getD_of_map_eq hcont]
    exact dedupRun_pair_dissimilar thr bullets hab (hmem hqlen).2
      (hmem hplen).1 (hmem hqlen).1

lemma dedupSection_eq_of_lt (thr : ℚ) (bullets : List Bullet)
    (h : bullets.length < 2) : dedupSection thr bullets = (bullets, 0) := by
  unfold dedupSection
  rw [if_pos h]

lemma dedupSection_eq_of_ge (thr : ℚ) (bullets : List Bullet)
    (h : ¬ bullets.length < 2) :
    dedupSection thr bullets =
      (keepIdx (dedupRun thr bullets).bs (dedupRun thr bullets).rem,
        (dedupRun thr bullets).rem.length) := by
  unfold dedupSection
  rw [if_neg h]

lemma dedupSection_idem (thr : ℚ) (bullets : List Bullet) :
    (dedupSection thr (dedupSection thr bullets).1).2 = 0 := by
  by_cases hk2 : ((dedupSection thr bullets).1).length < 2
  · rw [dedupSection_eq_of_lt thr _ hk2]
  · rw [dedupSection_eq_of_ge thr _ hk2]
    have hrun := dedupRun_id thr ((dedupSection thr bullets).1)
      (dedupSection_pairs thr bullets)
    rw [hrun]
    rfl

/-- C4: `deduplicate` is idempotent — for every playbook and every similarity
threshold, a second consecutive run removes zero further bullets. -/
theorem C4_dedup_idempotent (thr : ℚ) (pb : List (String × List Bullet)) :
    (deduplicate thr (deduplicate thr pb).1).2 = 0 := by
  unfold deduplicate
  simp only [List.map_map]
  apply List.sum_eq_zero
  intro x hx
  rw [List.mem_map] at hx
  obtain ⟨sec, _, hxeq⟩ := hx
  rw [← hxeq]
  simp only [Function.comp]
  exact dedupSection_idem thr sec.2

/-- Bullet A of the dedup counterexample: similar to both B and C,
quality ratio `1/2`. -/
def bA : Bullet :=
  { id := "GE-001", content := "a b c", sectionName := "general",
    helpful_count := 1, harmful_count := 1 }

/-- Bullet B: similar to A but not to C, quality ratio `1`. -/
def bB : Bullet :=
  { id := "GE-002", content := "a b c d", sectionName := "general",
    helpful_count := 1, harmful_count := 0 }

/-- Bullet C: similar to A but not to B, quality ratio `0`. -/
def bC : Bullet :=
  { id := "GE-003", content := "a b c e", sectionName := "general",
    helpful_count := 0, harmful_count := 1 }

/-- B after absorbing A's counts. -/
def bBm : Bullet :=
  { id := "GE-002", content := "a b c d", sectionName := "general",
    helpful_count := 2, harmful_count := 1 }

/-- A after absorbing C's counts (although A is already marked for removal). -/
def bAm : Bullet :=
  { id := "GE-001", content := "a b c", sectionName := "general",
    helpful_count := 1, harmful_count := 2 }

lemma simAB : textSimilarity "a b c" "a b c d" = 3/4 := by
  have hI : ((wordSet "a b c") ∩ (wordSet "a b c d")).card = 3 := by decide
  have hU : ((wordSet "a b c") ∪ (wordSet "a b c d")).card = 4 := by decide
  have hne : ¬ (wordSet "a b c" = ∅ ∨ wordSet "a b c d" = ∅) := by decide
  rw [textSimilarity, if_neg hne, hI, hU]
  norm_num

lemma simAC : textSimilarity "a b c" "a b c e" = 3/4 := by
  have hI : ((wordSet "a b c") ∩ (wordSet "a b c e")).card = 3 := by decide
  have hU : ((wordSet "a b c") ∪ (wordSet "a b c e")).card = 4 := by decide
  have hne : ¬ (wordSet "a b c" = ∅ ∨ wordSet "a b c e" = ∅) := by decide
  rw [textSimilarity, if_neg hne, hI, hU]
  norm_num

lemma ratio_bA : bA.quality_ratio = 1/2 := by
  norm_num [Bullet.quality_ratio, bA]

lemma ratio_bB : bB.quality_ratio = 1 := by
  norm_num [Bullet.quality_ratio, bB]

lemma ratio_bC : bC.quality_ratio = 0 := by
  norm_num [Bullet.quality_ratio, bC]

lemma dedupRun_eval :
    dedupRun ((7:ℚ)/10) [bA, bB, bC] = ⟨[bAm, bBm, bC], [2, 0]⟩ := by
  have s1 : innerStep ((7:ℚ)/10) 0 ⟨[bA, bB, bC], []⟩ 1 = ⟨[bA, bBm, bC], [0]⟩ := by
    unfold innerStep
    rw [if_neg (by decide : ¬ ((1:ℕ) ∈ ([] : List ℕ)))]
    rw [if_pos (show (7:ℚ)/10 ≤
        textSimilarity (([bA, bB, bC].getD 0 default)).content
          (([bA, bB, bC].getD 1 default)).content by
      show (7:ℚ)/10 ≤ textSimilarity "a b c" "a b c d"
      rw [simAB]
      norm_num)]
    rw [if_neg (show ¬ (([bA, bB, bC].getD 1 default)).quality_ratio ≤
        (([bA, bB, bC].getD 0 default)).quality_ratio by
      show ¬ bB.quality_ratio ≤ bA.quality_ratio
      rw [ratio_bB, ratio_bA]
      norm_num)]
    rfl
  have s2 : innerStep ((7:ℚ)/10) 0 ⟨[bA, bBm, bC], [0]⟩ 2 =
      ⟨[bAm, bBm, bC], [2, 0]⟩ := by
    unfold innerStep
    rw [if_neg (by decide : ¬ ((2:ℕ) ∈ ([0] : List ℕ)))]
    rw [if_pos (show (7:ℚ)/10 ≤
        textSimilarity (([bA, bBm, bC].getD 0 default)).content
          (([bA, bBm, bC].getD 2 default)).content by
      show (7:ℚ)/10 ≤ textSimilarity "a b c" "a b c e"
      rw [simAC]
      norm_num)]
    rw [if_pos (show (([bA, bBm, bC].getD 2 default)).quality_ratio ≤
        (([bA, bBm, bC].getD 0 default)).quality_ratio by
      show bC.quality_ratio ≤ bA.quality_ratio
      rw [ratio_bC, ratio_bA]
      norm_num)]
    rfl
  have s3 : innerStep ((7:ℚ)/10) 1 ⟨[bAm, bBm, bC], [2, 0]⟩ 2 =
      ⟨[bAm, bBm, bC], [2, 0]⟩ := by
    unfold innerStep
    rw [if_pos (by decide : (2:ℕ) ∈ ([2, 0] : List ℕ))]
  have o0 : outerStep ((7:ℚ)/10) 3 ⟨[bA, bB, bC], []⟩ 0 =
      ⟨[bAm, bBm, bC], [2, 0]⟩ := by
    unfold outerStep
    rw [if_neg (by decide : ¬ ((0:ℕ) ∈ ([] : List ℕ)))]
    show ([1, 2] : List ℕ).foldl (innerStep ((7:ℚ)/10) 0) ⟨[bA, bB, bC], []⟩ =
      (⟨[bAm, bBm, bC], [2, 0]⟩ : DState)
    rw [List.foldl_cons, s1, List.foldl_cons, s2]
    rfl
  have o1 : outerStep ((7:ℚ)/10) 3 ⟨[bAm, bBm, bC], [2, 0]⟩ 1 =
      ⟨[bAm, bBm, bC], [2, 0]⟩ := by
    unfold outerStep
    rw [if_neg (by decide : ¬ ((1:ℕ) ∈ ([2, 0] : List ℕ)))]
    show ([2] : List ℕ).foldl (innerStep ((7:ℚ)/10) 1) ⟨[bAm, bBm, bC], [2, 0]⟩ =
      (⟨[bAm, bBm, bC], [2, 0]⟩ : DState)
    rw [List.foldl_cons, s3]
    rfl
  have o2 : outerStep ((7:ℚ)/10) 3 ⟨[bAm, bBm, bC], [2, 0]⟩ 2 =
      ⟨[bAm, bBm, bC], [2, 0]⟩ := by
    unfold outerStep
    rw [if_pos (by decide : (2:ℕ) ∈ ([2, 0] : List ℕ))]
  unfold dedupRun
  show ([0, 1, 2] : List ℕ).foldl (outerStep ((7:ℚ)/10) 3) ⟨[bA, bB, bC], []⟩ =
    (⟨[bAm, bBm, bC], [2, 0]⟩ : DState)
  rw [List.foldl_cons, o0, List.foldl_cons, o1, List.foldl_cons, o2]
  rfl

/-- C5 (code-bug evidence): on the section `[bA, bB, bC]` at threshold `0.7`,
`deduplicate` merges C's counts into A after A has already been marked for
removal, so the merged counts are lost with A: the only survivor is B with
counts `(2,1)`, and the section's total harmful count drops from `2` to `1`
although the claim says per-section totals are preserved. -/
theorem C5_merge_counts_lost :
    (dedupSection ((7:ℚ)/10) [bA, bB, bC]).1 = [bBm] ∧
      ((([bA, bB, bC]).map Bullet.harmful_count)).sum = 2 ∧
      ((((dedupSection ((7:ℚ)/10) [bA, bB, bC]).1).map Bullet.harmful_count)).sum = 1 := by
  have heval : dedupSection ((7:ℚ)/10) [bA, bB, bC] = ([bBm], 2) := by
    rw [dedupSection_eq_of_ge _ _ (by decide), dedupRun_eval]
    rfl
  rw [heval]
  refine ⟨rfl, by decide, rfl⟩

/-- The score the code computes in `get_top_bullets`/`export_for_agent`
(`playbook.py` lines 252-253 and 284-287):
`quality_ratio * math.log1p(total_references + 1)`, i.e.
`quality_ratio * log(1 + (total_references + 1))`. -/
noncomputable def bulletScore (b : Bullet) : ℝ :=
  (b.quality_ratio : ℝ) * Real.log (1 + ((b.total_references : ℝ) + 1))

/-- The score the specification (and the code's own comment) states:
`quality_ratio * log(1 + total_references)`. -/
noncomputable def claimedScore (b : Bullet) : ℝ :=
  (b.quality_ratio : ℝ) * Real.log (1 + (b.total_references : ℝ))

/-- Comparator of the descending sort by score: `a` may precede `b` when
`score b ≤ score a` (Python `sort(key=score, reverse=True)` is the stable
sort with respect to this relation). -/
noncomputable def scoreGe (a b : Bullet) : Bool :=
  @decide (bulletScore b ≤ bulletScore a) (Classical.propDecidable _)

/-- `Playbook.get_top_bullets` (`playbook.py` lines 239-258) with no section
filter: all bullets, sorted by score descending, first `n`. -/
noncomputable def getTopBullets (n : ℕ) (pb : List (String × List Bullet)) :
    List Bullet :=
  (((pb.map (fun s => s.2)).flatten).mergeSort scoreGe).take n

/-- `f"- [{bullet.id}] {bullet.content}\n"` (`playbook.py` line 295). -/
def bulletLine (b : Bullet) : String :=
  "- [" ++ b.id ++ "] " ++ b.content ++ "\n"

/-- The fixed header line of `export_for_agent` (`playbook.py` line 290). -/
def playbookHeader : String :=
  "## Coding Playbook (learned patterns — follow these)\n"

/-- The greedy packing loop of `export_for_agent` (`playbook.py` lines
294-299): append whole lines while the running character count stays within
the budget; `break` at the first line that would exceed it. -/
def packLines (charBudget : ℕ) : List Bullet → ℕ → List String
  | [], _ => []
  | b :: rest, count =>
    if charBudget < count + (bulletLine b).length then []
    else bulletLine b :: packLines charBudget rest (count + (bulletLine b).length)

/-- The role → relevant-sections table of `export_for_agent`
(`playbook.py` lines 266-275); an unknown role sees every section. -/
def roleSections (role : String) (pb : List (String × List Bullet)) :
    List String :=
  if role = "planner" then ["architecture", "build_ordering", "general"]
  else if role = "builder" then
    ["import_resolution", "flask_patterns", "dataclass_patterns",
     "sqlite_patterns", "stdlib_usage", "error_recovery", "general"]
  else if role = "test_gen" then
    ["test_generation", "import_resolution", "general"]
  else if role = "initializer" then ["architecture", "general"]
  else if role = "explorer" then ["architecture", "general"]
  else pb.map (fun s => s.1)

/-- `for section in relevant_sections: if section in self.sections:
bullets.extend(...)` (`playbook.py` lines 278-281). -/
def exportCandidates (role : String) (pb : List (String × List Bullet)) :
    List Bullet :=
  (roleSections role pb).foldl
    (fun acc name =>
      match pb.find? (fun s => s.1 = name) with
      | some s => acc ++ s.2
      | none => acc) []

/-- `Playbook.export_for_agent` (`playbook.py` lines 260-301): header plus
the greedily packed bullet lines of the score-sorted candidates, with a
character budget of 4 characters per token. -/
noncomputable def exportForAgent (role : String) (max_tokens : ℕ)
    (pb : List (String × List Bullet)) : String :=
  playbookHeader ++
    String.join (packLines (max_tokens * 4)
      ((exportCandidates role pb).mergeSort scoreGe) playbookHeader.length)

/-- A bullet with one helpful and nine harmful references. -/
def bulletOneNine : Bullet :=
  { id := "GE-004", content := "z", sectionName := "general",
    helpful_count := 1, harmful_count := 9 }

/-- C7 (code-bug evidence): the code scores bullets as
`quality_ratio * log1p(total_references + 1)` = `ratio * log(2 + refs)`,
not `ratio * log(1 + refs)` as its own comment and the spec state; the two
formulas even order concrete bullets oppositely: for the fresh bullet
`(0,0)` and the bullet `(1,9)`, the documented formula ranks `(1,9)` first
while the implemented one ranks `(0,0)` first. -/
theorem C7_score_formula_bug :
    claimedScore bulletFresh < claimedScore bulletOneNine ∧
      bulletScore bulletOneNine < bulletScore bulletFresh := by
  have e1 : bulletFresh.quality_ratio = 1/2 := by
    norm_num [Bullet.quality_ratio, bulletFresh]
  have e2 : bulletOneNine.quality_ratio = 1/10 := by
    norm_num [Bullet.quality_ratio, bulletOneNine]
  have l2pos : (0:ℝ) < Real.log 2 := Real.log_pos (by norm_num)
  have l11pos : (0:ℝ) < Real.log 11 := Real.log_pos (by norm_num)
  have h32 : Real.log 32 = 5 * Real.log 2 := by
    rw [show (32:ℝ) = 2^5 by norm_num, Real.log_pow]
    norm_num
  have h12 : Real.log 12 < Real.log 32 := Real.log_lt_log (by norm_num) (by norm_num)
  have c1 : claimedScore bulletFresh = 0 := by
    unfold claimedScore
    rw [e1]
    norm_num [Bullet.total_references, bulletFresh, Real.log_one]
  have c2 : claimedScore bulletOneNine = (1/10 : ℝ) * Real.log 11 := by
    unfold claimedScore
    rw [e2]
    norm_num [Bullet.total_references, bulletOneNine]
  have c3 : bulletScore bulletFresh = (1/2 : ℝ) * Real.log 2 := by
    unfold bulletScore
    rw [e1]
    norm_num [Bullet.total_references, bulletFresh]
  have c4 : bulletScore bulletOneNine = (1/10 : ℝ) * Real.log 12 := by
    unfold bulletScore
    rw [e2]
    norm_num [Bullet.total_references, bulletOneNine]
  constructor
  · rw [c1, c2]
    exact mul_pos (by norm_num) l11pos
  · rw [c3, c4]
    linarith

/-- Total character length of the bullet lines of a list. -/
def lineLenSum (l : List Bullet) : ℕ :=
  (l.map (fun b => (bulletLine b).length)).sum

lemma packLines_spec (charBudget : ℕ) : ∀ (l : List Bullet) (count : ℕ),
    ∃ k, packLines charBudget l count = (l.take k).map bulletLine ∧
      (k = 0 ∨ count + lineLenSum (l.take k) ≤ charBudget) ∧
      (k < l.length → charBudget < count + lineLenSum (l.take (k + 1)))
  | [], count => ⟨0, rfl, Or.inl rfl, by intro h; simp at h⟩
  | b :: rest, count => by
    by_cases hb : charBudget < count + (bulletLine b).length
    · refine ⟨0, ?_, Or.inl rfl, ?_⟩
      · unfold packLines
        rw [if_pos hb]
        rfl
      · intro _
        simpa [lineLenSum] using hb
    · obtain ⟨k', h1, h2, h3⟩ :=
        packLines_spec charBudget rest (count + (bulletLine b).length)
      refine ⟨k' + 1, ?_, ?_, ?_⟩
      · unfold packLines
        rw [if_neg hb, h1]
        rfl
      · right
        push_neg at hb
        have hsum : lineLenSum ((b :: rest).take (k' + 1)) =
            (bulletLine b).length + lineLenSum (rest.take k') := by
          simp [lineLenSum]
        rcases h2 with h0 | hk
        · subst h0
          rw [hsum]
          simpa [lineLenSum] using hb
        · rw [hsum]
          omega
      · intro hlen
        have hlen' : k' < rest.length := by simpa using hlen
        have h3' := h3 hlen'
        have hsum : lineLenSum ((b :: rest).take (k' + 1 + 1)) =
            (bulletLine b).length + lineLenSum (rest.take (k' + 1)) := by
          simp [lineLenSum]
        rw [hsum]
        omega

/-- A bullet whose rendered line is far longer than 40 characters. -/
def bulletLong : Bullet :=
  { id := "GE-005",
    content := "use explicit relative imports and verify module names before writing code",
    sectionName := "general", helpful_count := 0, harmful_count := 0 }

/-- C8: `export_for_agent` renders the header followed by the greedily packed
whole bullet lines of a score-descending ordering of the candidates: the
packed lines are exactly the lines of a prefix of that ordering (never a
partial line), the prefix stays within the `max_tokens * 4` character budget,
and it stops at the first line that would exceed the budget; with a 10-token
budget and a sole candidate whose line exceeds 40 characters the output is
the header alone. -/
theorem C8_export_greedy :
    (∀ (role : String) (max_tokens : ℕ) (pb : List (String × List Bullet)),
      ∃ l : List Bullet,
        l.Pairwise (fun a b => bulletScore b ≤ bulletScore a) ∧
        l.Perm (exportCandidates role pb) ∧
        exportForAgent role max_tokens pb =
          playbookHeader ++
            String.join (packLines (max_tokens * 4) l playbookHeader.length)) ∧
    (∀ (charBudget : ℕ) (l : List Bullet) (count : ℕ),
      ∃ k, packLines charBudget l count = (l.take k).map bulletLine ∧
        (k = 0 ∨ count + lineLenSum (l.take k) ≤ charBudget) ∧
        (k < l.length → charBudget < count + lineLenSum (l.take (k + 1)))) ∧
    exportForAgent "general" 10 [("general", [bulletLong])] = playbookHeader := by
  refine ⟨?_, packLines_spec, ?_⟩
  · intro role mt pb
    refine ⟨(exportCandidates role pb).mergeSort scoreGe, ?_,
      List.mergeSort_perm _ _, rfl⟩
    have htrans : ∀ a b c : Bullet, scoreGe a b = true → scoreGe b c = true →
        scoreGe a c = true := by
      intro a b c hab hbc
      unfold scoreGe at *
      rw [decide_eq_true_iff] at *
      exact le_trans hbc hab
    have htotal : ∀ a b : Bullet, (scoreGe a b || scoreGe b a) = true := by
      intro a b
      rw [Bool.or_eq_true]
      unfold scoreGe
      rw [decide_eq_true_iff, decide_eq_true_iff]
      exact le_total _ _
    have hs := List.sorted_mergeSort htrans htotal (exportCandidates role pb)
    refine hs.imp ?_
    intro a b h
    unfold scoreGe at h
    rwa [decide_eq_true_iff] at h
  · have hcand : exportCandidates "general" [("general", [bulletLong])] =
        [bulletLong] := by decide
    unfold exportForAgent
    rw [hcand, List.mergeSort_singleton]
    have hpack : packLines (10 * 4) [bulletLong] playbookHeader.length = [] := by
      unfold packLines
      rw [if_pos (by decide)]
    rw [hpack]
    decide

/-- C8 witness: the packing characterization applied to the long bullet with
a 40-character budget and a 52-character running count. -/
theorem C8_export_greedy_witness :
    ∃ k, packLines 40 [bulletLong] 52 = (([bulletLong]).take k).map bulletLine ∧
      (k = 0 ∨ 52 + lineLenSum (([bulletLong]).take k) ≤ 40) ∧
      (k < ([bulletLong]).length → 40 < 52 + lineLenSum (([bulletLong]).take (k + 1))) :=
  C8_export_greedy.2.1 40 [bulletLong] 52

/-- C1 witness: the success characterization instantiated at the two-criteria
marker. -/
theorem C1_success_iff_witness :
    ∃ t, parseSession "s-w" (some stateTwoPassed) = some t ∧
      (t.success = true ↔ (stateTwoPassed.dod_criteria ≠ [] ∧
        ∀ c ∈ stateTwoPassed.dod_criteria, c.passed = true)) :=
  C1_success_iff.1 "s-w" stateTwoPassed
